import Mathlib

set_option maxRecDepth 8192

/-!
Verification development for the hue bridge discovery library
(repository `go.hue`, package `hue`).

The Go source is shallowly embedded:

* Go strings are modelled as `List Char` (`GoStr`).  All inputs that
  matter here are ASCII, where Go byte-wise semantics of
  `strings.Contains` / `strings.Split` / `strings.SplitAfter` /
  `strings.ToLower` coincide with the character-list models below.
* Network effects (UDP reads, HTTP round trips) are passed in as
  explicit input traces or oracle functions.
* Go runtime panics (slice index out of range) are modelled as `none`
  of an `Option` result.
-/

namespace Hue

/-- Go strings, modelled as lists of characters. -/
abbrev GoStr := List Char

/-- Locate the first occurrence of `sep` in `s`: returns the text before
the occurrence and the text after it (Go `strings.Index` + slicing).
Returns `none` when `sep` does not occur in `s`. -/
def splitFirst (s sep : GoStr) : Option (GoStr × GoStr) :=
  match s with
  | [] => if sep.isEmpty then some ([], []) else none
  | c :: rest =>
    if sep.isPrefixOf s then some ([], s.drop sep.length)
    else match splitFirst rest sep with
      | none => none
      | some (pre, post) => some (c :: pre, post)

/-- Fuel-bounded worker for `goSplit`.  For a non-empty separator every
recursive step strictly shortens the remaining text, so fuel
`s.length + 1` is always sufficient. -/
def goSplitFuel : Nat → GoStr → GoStr → List GoStr
  | 0, s, _ => [s]
  | fuel + 1, s, sep =>
    match splitFirst s sep with
    | none => [s]
    | some (pre, post) => pre :: goSplitFuel fuel post sep

/-- Go `strings.Split(s, sep)` for a non-empty separator: the pieces of
`s` around each leftmost non-overlapping occurrence of `sep`. -/
def goSplit (s sep : GoStr) : List GoStr :=
  goSplitFuel (s.length + 1) s sep

/-- Go `strings.SplitAfter(s, sep)`: like `goSplit` but every piece
except the last keeps the separator at its end. -/
def goSplitAfter (s sep : GoStr) : List GoStr :=
  let ps := goSplit s sep
  (ps.dropLast.map (fun p => p ++ sep)) ++ [ps.getLastD []]

/-- Go `strings.Contains(s, sub)`: true exactly when `sub` occurs as a
contiguous substring of `s`. -/
def goContains (s sub : GoStr) : Bool :=
  (splitFirst s sub).isSome

/-- Go `strings.ToLower` restricted to ASCII (the only inputs relevant
here); `Char.toLower` lowers exactly the characters A-Z. -/
def goToLower (s : GoStr) : GoStr :=
  s.map Char.toLower

end Hue

namespace Hue

/-- Status line text required by the validator. -/
def statusTag : GoStr := "HTTP/1.1 200 OK".toList

/-- Unique-service-name field marker (matched on the lowered body). -/
def usnTag : GoStr := "usn".toList

/-- Search-target field marker (matched on the lowered body). -/
def stTag : GoStr := "st".toList

/-- Vendor banner marker (matched on the lowered body). -/
def ipBridgeTag : GoStr := "ipbridge".toList

/-- Location field marker (matched on the lowered body). -/
def locationTag : GoStr := "location".toList

/-- Separator the validator slices the location value after. -/
def locationSep : GoStr := "location: ".toList

/-- URL scheme prefix the validator slices the host after. -/
def httpScheme : GoStr := "http://".toList

/-- Line separator used to isolate the location line. -/
def newlineTag : GoStr := "\n".toList

/-- Separator ending the compared host token. -/
def colonTag : GoStr := ":".toList

/-- Embedding of `ssdpResponseValid(body string, origin net.IP)` from the
SSDP discovery file.  `origin` stands for `origin.String()`.

Result encoding:
* `some true`   — the Go function returns `(true, nil)`;
* `some false`  — the Go function returns `(false, err)` for some
  non-nil validation error (the caller ignores the distinction);
* `none`        — the Go function panics with an index-out-of-range
  runtime error: it evaluates `s[1]` on the result of
  `strings.SplitAfter`, which has a single element whenever the
  separator does not occur.
-/
def ssdpResponseValid (body origin : GoStr) : Option Bool :=
  -- Validate header
  if !(goContains body statusTag) then some false
  else
    let lower := goToLower body
    -- Validate MUST fields (USN and ST)
    if !(goContains lower usnTag) || !(goContains lower stTag) then
      some false
    -- Hue bridges send the string IpBridge in the SERVER field
    else if !(goContains lower ipBridgeTag) then some false
    -- Validate IP in LOCATION field
    else if !(goContains lower locationTag) then some false
    else
      match (goSplitAfter lower locationSep).get? 1 with
      | none => none
      | some s1 =>
        let location := (goSplit s1 newlineTag).headD []
        match (goSplitAfter location httpScheme).get? 1 with
        | none => none
        | some s2 =>
          let ip := (goSplit s2 colonTag).headD []
          if ip ≠ origin then some false else some true

/-- The address-like token the validator actually compares against the
origin: the text of the first location line between `http://` and the
next `:`, or `none` when one of the two `s[1]` slice accesses panics.
Factored out of `ssdpResponseValid` for stating theorems. -/
def ssdpExtractIP (lower : GoStr) : Option GoStr :=
  match (goSplitAfter lower locationSep).get? 1 with
  | none => none
  | some s1 =>
    let location := (goSplit s1 newlineTag).headD []
    match (goSplitAfter location httpScheme).get? 1 with
    | none => none
    | some s2 => some ((goSplit s2 colonTag).headD [])

/-! ## Local multicast prober (`upnpDiscover`) -/

/-- Classification of a failed `socket.ReadFromUDP` call: whether the
error type-asserts to `net.Error`, whether `Timeout()` reports true, and
an identity tag so that distinct errors can be told apart. -/
structure ReadErr where
  isNetError : Bool
  isTimeout : Bool
  errId : Nat
deriving DecidableEq, Repr

/-- One event observed by the read loop of `upnpDiscover`: either a
datagram (its body and the source address `addr.IP.String()`), or a
read error. -/
inductive ReadEvent where
  | datagram (body : GoStr) (ip : GoStr)
  | fail (e : ReadErr)
deriving DecidableEq, Repr

/-- How the read loop of `upnpDiscover` ends. -/
inductive UpnpExit where
  /-- The input trace ran out with the loop still blocked on a read. -/
  | blocked
  /-- Returned `nil` (timeout-class read error). -/
  | ok
  /-- Returned the read error `e`. -/
  | errored (e : ReadErr)
  /-- A Go runtime panic inside `ssdpResponseValid`. -/
  | panicked
deriving DecidableEq, Repr

/-- Embedding of the response loop of `upnpDiscover` (the code after the
multicast send): reads events in order, validates each datagram together
with its source address, keeps the list `origins` of addresses already
emitted and emits each new valid address once.  Returns the emitted
addresses in order together with the way the loop ended. -/
def upnpReadLoop : List ReadEvent → List GoStr → List GoStr × UpnpExit
  | [], _ => ([], .blocked)
  | .fail e :: _, _ =>
    if !e.isNetError || !e.isTimeout then ([], .errored e) else ([], .ok)
  | .datagram body ip :: rest, origins =>
    match ssdpResponseValid body ip with
    | none => ([], .panicked)
    | some valid =>
      if !valid then upnpReadLoop rest origins
      else if origins.contains ip then upnpReadLoop rest origins
      else
        let r := upnpReadLoop rest (origins ++ [ip])
        (ip :: r.1, r.2)

/-- Environment of one `upnpDiscover` call: whether `net.ListenUDP`
fails, whether the multicast `WriteToUDP` fails, and the subsequent
read events. -/
structure UpnpInput where
  listenFails : Bool
  writeFails : Bool
  reads : List ReadEvent
deriving DecidableEq, Repr

/-- Result of one `upnpDiscover` call.  `socketClosed` means no open UDP
socket remains: `true` on the listen-failure path (no socket was ever
opened) and on every path that runs the deferred `socket.Close()`,
including panics, which unwind deferred calls in Go. -/
structure UpnpOutcome where
  emitted : List GoStr
  exit : UpnpExit
  socketClosed : Bool
deriving DecidableEq, Repr

/-- Exit marker for the two early-return paths before the read loop. -/
def listenErrId : Nat := 1000

/-- Exit marker for a failed multicast send. -/
def writeErrId : Nat := 1001

/-- Embedding of `upnpDiscover(respondingHosts chan<- string) error`:
open the socket (returning the error when that fails, before any
`defer` is installed), send the multicast search datagram (returning
the error when the send fails), then run the read loop.  The deferred
`socket.Close()` is installed right after the deadline is set, so every
later exit path closes the socket. -/
def upnpDiscover (inp : UpnpInput) : UpnpOutcome :=
  if inp.listenFails then
    ⟨[], .errored ⟨false, false, listenErrId⟩, true⟩
  else if inp.writeFails then
    ⟨[], .errored ⟨false, false, writeErrId⟩, true⟩
  else
    let r := upnpReadLoop inp.reads []
    match r.2 with
    | .blocked => ⟨r.1, .blocked, false⟩
    | x => ⟨r.1, x, true⟩

/-! ## Cloud registry prober (`nupnpDiscover`) -/

/-- Embedding of the struct `nupnpBridge` decoded from the JSON array
served at the nupnp endpoint. -/
structure NupnpBridge where
  serial : GoStr
  ipAddr : GoStr
deriving DecidableEq, Repr

/-- Embedding of `nupnpDiscover(respondingHosts chan<- string) error`.
The HTTPS round trip is the input: `none` models a transport failure of
`http.Get`, `some none` a JSON decode failure, `some (some bs)` a
successfully decoded array.  The result is `Except.error ()` when the
probe returns a non-nil error (no addresses emitted in either failure
case) and `Except.ok` with the emitted addresses otherwise. -/
def nupnpDiscover (response : Option (Option (List NupnpBridge))) :
    Except Unit (List GoStr) :=
  match response with
  | none => .error ()
  | some none => .error ()
  | some (some bridges) => .ok (bridges.map (fun b => b.ipAddr))

/-! ## Candidate confirmer (`validateBridges`) -/

/-- Fixed fingerprint substring: the device type URN. -/
def deviceTypeTag : GoStr :=
  "<deviceType>urn:schemas-upnp-org:device:Basic:1</deviceType>".toList

/-- Fixed fingerprint substring: the manufacturer name. -/
def manufacturerTag : GoStr :=
  "<manufacturer>Royal Philips Electronics</manufacturer>".toList

/-- Fixed fingerprint substring: the model URL. -/
def modelURLTag : GoStr :=
  "<modelURL>http://www.meethue.com</modelURL>".toList

/-- Conjunction of the three fingerprint checks on a description body
(used to state theorems about `validateBridges`). -/
def hueFingerprint (body : GoStr) : Bool :=
  goContains body deviceTypeTag && goContains body manufacturerTag &&
    goContains body modelURLTag

/-- Embedding of `validateBridges(candidates <-chan string, bridges
chan<- string)`.  `fetch c` models the GET of
`http://<c>/description.xml` followed by reading the body: `none` when
`http.Get` or `ioutil.ReadAll` fails, `some body` otherwise.  Each
failing candidate is skipped with `continue`; each candidate whose body
holds all three fingerprint substrings is sent on, in order. -/
def validateBridges (fetch : GoStr → Option GoStr) :
    List GoStr → List GoStr
  | [] => []
  | candidate :: rest =>
    match fetch candidate with
    | none => validateBridges fetch rest
    | some body =>
      if !(goContains body deviceTypeTag) then validateBridges fetch rest
      else if !(goContains body manufacturerTag) then
        validateBridges fetch rest
      else if !(goContains body modelURLTag) then validateBridges fetch rest
      else candidate :: validateBridges fetch rest

/-! ## Discovery orchestrator (`DiscoverBridges`) -/

/-- Embedding of the `Bridge` struct as constructed by the discovery
loop (`Bridge{bridge, "", false}`: address, username, debug flag). -/
structure Bridge where
  ipAddr : GoStr
  username : GoStr
  debug : Bool
deriving DecidableEq, Repr

/-- One event delivered to the `select` loop of `DiscoverBridges`:
a receive of a confirmed bridge address from `bridgeChannel`, a receive
observing that `bridgeChannel` is closed (`more == false`), or the
`time.After(discoveryTimeout)` timer firing. -/
inductive DiscoveryEvent where
  | confirmed (addr : GoStr)
  | closed
  | timeout
deriving DecidableEq, Repr

/-- Mutable state of the `select` loop of `DiscoverBridges`: the
accumulated `bridges` slice and the `scanStarted` flag.  `scanCalls`
additionally counts the calls of `scanLocalNetwork`, which the Go code
performs only inside the `if !scanStarted` branch. -/
structure LoopState where
  bridges : List Bridge
  scanStarted : Bool
  scanCalls : Nat
deriving DecidableEq, Repr

/-- Outcome of the `select` loop: `done bridges failed scanCalls` when
`DiscoverBridges` returns (`failed = true` exactly on the path that
returns the error `Bridge discovery failed`), or `pending` with the
current state when the event trace is exhausted while the loop is still
waiting. -/
inductive LoopOutcome where
  | done (bridges : List Bridge) (failed : Bool) (scanCalls : Nat)
  | pending (s : LoopState)
deriving DecidableEq, Repr

/-- Embedding of the `select` loop of `DiscoverBridges`, processing the
events of one run in order.  Mirrors the source exactly, including the
assignment `scanStarted = true` that precedes the `if !scanStarted`
test in the timeout branch. -/
def discoverLoop (discoverAllBridges : Bool) (s : LoopState) :
    List DiscoveryEvent → LoopOutcome
  | [] => .pending s
  | .confirmed addr :: rest =>
    -- more == true: append Bridge{bridge, "", false}
    let s' : LoopState :=
      { s with bridges := s.bridges ++ [⟨addr, [], false⟩] }
    if !discoverAllBridges then .done s'.bridges false s'.scanCalls
    else discoverLoop discoverAllBridges s' rest
  | .closed :: _ =>
    -- more == false
    if s.bridges.length > 0 then .done s.bridges false s.scanCalls
    else .done s.bridges true s.scanCalls
  | .timeout :: rest =>
    if s.bridges.length > 0 then .done s.bridges false s.scanCalls
    else
      let s' : LoopState := { s with scanStarted := true }
      if !s'.scanStarted then
        -- scanLocalNetwork(hostChannel); scanStarted = true; continue
        discoverLoop discoverAllBridges
          { s' with scanStarted := true, scanCalls := s'.scanCalls + 1 } rest
      else .done s'.bridges true s'.scanCalls

/-- Embedding of `DiscoverBridges(discoverAllBridges bool)`: the select
loop started on the empty bridges slice with `scanStarted = false`.
The goroutines started beforehand are `upnpDiscover(hostChannel)` and
`validateBridges(hostChannel, bridgeChannel)`; the call
`go nupnpDiscover(hostChannel)` is commented out in the source, so the
candidate stream consists of the multicast emissions only. -/
def DiscoverBridges (discoverAllBridges : Bool)
    (events : List DiscoveryEvent) : LoopOutcome :=
  discoverLoop discoverAllBridges ⟨[], false, 0⟩ events

/-- Addresses of the bridges held by a loop outcome (the returned slice
for `done`, the accumulated slice for `pending`). -/
def outcomeAddrs : LoopOutcome → List GoStr
  | .done bridges _ _ => bridges.map (fun b => b.ipAddr)
  | .pending s => s.bridges.map (fun b => b.ipAddr)

/-- Number of `scanLocalNetwork` calls recorded by a loop outcome. -/
def outcomeScanCalls : LoopOutcome → Nat
  | .done _ _ n => n
  | .pending s => s.scanCalls

/-- Addresses carried by the `confirmed` events of a trace, in order:
the content of `bridgeChannel` as seen by the loop. -/
def eventBridges : List DiscoveryEvent → List GoStr
  | [] => []
  | .confirmed addr :: rest => addr :: eventBridges rest
  | _ :: rest => eventBridges rest

/-! ## Concrete sample inputs -/

/-- Sender address used by the concrete responses below. -/
def originA : GoStr := "10.0.0.5".toList

/-- A different address, for host-mismatch scenarios. -/
def originB : GoStr := "10.0.0.9".toList

/-- An SSDP response whose LOCATION URL carries an explicit port and
whose host component is `10.0.0.5`. -/
def ssdpBodyWithPort : GoStr :=
  "HTTP/1.1 200 OK\r\nLOCATION: http://10.0.0.5:80/description.xml\r\nSERVER: FreeRTOS/7.4.2 UPnP/1.0 IpBridge/1.10.0\r\nST: upnp:rootdevice\r\nUSN: uuid:2f402f80\r\n".toList

/-- The same response with a port-less LOCATION URL
`http://10.0.0.5/description.xml`. -/
def ssdpBodyNoPort : GoStr :=
  "HTTP/1.1 200 OK\r\nLOCATION: http://10.0.0.5/description.xml\r\nSERVER: FreeRTOS/7.4.2 UPnP/1.0 IpBridge/1.10.0\r\nST: upnp:rootdevice\r\nUSN: uuid:2f402f80\r\n".toList

/-- A response whose LOCATION header has no space after the colon
(valid HTTP, but the body then contains the text `location` without the
separator `location: ` that the validator slices on). -/
def ssdpBodyNoSpace : GoStr :=
  "HTTP/1.1 200 OK\r\nST: upnp:rootdevice\r\nUSN: uuid:1\r\nSERVER: IpBridge\r\nLOCATION:http://10.0.0.5/description.xml\r\n".toList

/-- A description body holding all three fingerprint substrings. -/
def sampleDescription : GoStr :=
  deviceTypeTag ++ manufacturerTag ++ modelURLTag

/-- Description oracle answering every candidate with
`sampleDescription`. -/
def sampleFetch : GoStr → Option GoStr := fun _ => some sampleDescription

/-- A multicast probe run: two duplicate valid datagrams from
`10.0.0.5`, then a deadline timeout. -/
def sampleUpnpInput : UpnpInput :=
  ⟨false, false,
   [.datagram ssdpBodyWithPort originA, .datagram ssdpBodyWithPort originA,
    .fail ⟨true, true, 5⟩]⟩

/-- A discovery run delivering the single confirmed bridge `10.0.0.5`
and then observing the results channel closed. -/
def sampleEvents : List DiscoveryEvent :=
  [.confirmed originA, .closed]

end Hue

namespace Hue

/-! ## Helper lemmas -/

/-- The select loop never changes the `scanLocalNetwork` call count:
the only call site sits in the branch guarded by `if !scanStarted`
evaluated right after the assignment `scanStarted = true`. -/
theorem discoverLoop_scanCalls_eq (all : Bool) :
    ∀ (events : List DiscoveryEvent) (s : LoopState),
      outcomeScanCalls (discoverLoop all s events) = s.scanCalls := by
  intro events
  induction events with
  | nil => intro s; rfl
  | cons e rest ih =>
    intro s
    cases e with
    | confirmed addr =>
      by_cases hall : all = true
      · subst hall
        simp [discoverLoop, ih]
      · simp only [Bool.not_eq_true] at hall
        subst hall
        simp [discoverLoop, outcomeScanCalls]
    | closed =>
      by_cases hlen : s.bridges.length > 0 <;>
        simp [discoverLoop, hlen, outcomeScanCalls]
    | timeout =>
      by_cases hlen : s.bridges.length > 0 <;>
        simp [discoverLoop, hlen, outcomeScanCalls]

/-- Processing a block of `confirmed` events in exhaustive mode appends
the corresponding bridges to the accumulated slice. -/
theorem discoverLoop_exhaustive_append (bs : List GoStr) :
    ∀ (s : LoopState) (rest : List DiscoveryEvent),
      discoverLoop true s (bs.map DiscoveryEvent.confirmed ++ rest) =
        discoverLoop true
          { s with bridges :=
              s.bridges ++ bs.map (fun a => ⟨a, [], false⟩) } rest := by
  induction bs with
  | nil => intro s rest; cases s; simp
  | cons a as ih =>
    intro s rest
    simp only [List.map_cons, List.cons_append, discoverLoop, Bool.not_true,
      Bool.false_eq_true, if_false, List.append_eq]
    rw [ih]
    simp [List.append_assoc]

end Hue

namespace Hue

/-! ## C1: subnet-scan escalation -/

/-- Claim C1: the spec states that a run reaching the initial timeout
with zero confirmed bridges invokes `scanLocalNetwork` exactly once and
only then fails.  The code instead executes `scanStarted = true` before
testing `if !scanStarted`, so the scan branch is unreachable: the first
conjunct shows a run that times out with zero bridges immediately
returns the failure with zero scan calls, and the second shows no run
of `DiscoverBridges` ever calls `scanLocalNetwork`. -/
theorem discoverBridges_scan_never_invoked :
    (∀ all : Bool,
      DiscoverBridges all [DiscoveryEvent.timeout] =
        LoopOutcome.done [] true 0) ∧
    (∀ (all : Bool) (events : List DiscoveryEvent),
      outcomeScanCalls (DiscoverBridges all events) = 0) := by
  constructor
  · intro all; rfl
  · intro all events
    exact discoverLoop_scanCalls_eq all events ⟨[], false, 0⟩

/-! ## C6: first-match mode -/

/-- Claim C6: with `discoverAllBridges = false`, a run whose results
stream delivers a confirmed bridge returns immediately with exactly
that one bridge (`Bridge{addr, "", false}`) and a nil error.  In
first-match mode every other event ends the run with zero bridges, so
an arriving confirmed bridge is necessarily the first processed event;
the remaining trace `rest` is arbitrary and unread, which is the
early-return behaviour. -/
theorem discoverBridges_first_match (addr : GoStr)
    (rest : List DiscoveryEvent) :
    DiscoverBridges false (DiscoveryEvent.confirmed addr :: rest) =
      LoopOutcome.done [⟨addr, [], false⟩] false 0 := rfl

/-! ## C7: exhaustive mode -/

/-- Claim C7: with `discoverAllBridges = true`, a run in which the
bridges `a :: as` arrive before the results stream closes (left
conjunct) or before the timeout elapses (right conjunct) returns all of
them, in arrival order, with a nil error. -/
theorem discoverBridges_exhaustive (a : GoStr) (as : List GoStr) :
    (DiscoverBridges true
        ((a :: as).map DiscoveryEvent.confirmed ++ [DiscoveryEvent.closed]) =
      LoopOutcome.done ((a :: as).map (fun x => ⟨x, [], false⟩)) false 0) ∧
    (DiscoverBridges true
        ((a :: as).map DiscoveryEvent.confirmed ++ [DiscoveryEvent.timeout]) =
      LoopOutcome.done ((a :: as).map (fun x => ⟨x, [], false⟩)) false 0) := by
  constructor <;>
  · unfold DiscoverBridges
    rw [discoverLoop_exhaustive_append]
    simp [discoverLoop]

/-! ## C8 and C10: multicast prober -/

/-- The read loop of `upnpDiscover` emits pairwise distinct addresses,
none of which is already recorded in `origins`. -/
theorem upnpReadLoop_nodup (reads : List ReadEvent) :
    ∀ origins : List GoStr,
      (upnpReadLoop reads origins).1.Nodup ∧
        ∀ a ∈ (upnpReadLoop reads origins).1, a ∉ origins := by
  induction reads with
  | nil => intro origins; simp [upnpReadLoop]
  | cons e rest ih =>
    intro origins
    cases e with
    | fail err =>
      by_cases h : (!err.isNetError || !err.isTimeout) = true <;>
        simp [upnpReadLoop, h]
    | datagram body ip =>
      cases hv : ssdpResponseValid body ip with
      | none => simp [upnpReadLoop, hv]
      | some valid =>
        cases valid with
        | false => simpa [upnpReadLoop, hv] using ih origins
        | true =>
          by_cases hdup : ip ∈ origins
          · simpa [upnpReadLoop, hv, hdup] using ih origins
          · have hrec := ih (origins ++ [ip])
            have hc : origins.contains ip = false := by simpa using hdup
            simp only [upnpReadLoop, hv, hc, Bool.not_true,
              Bool.false_eq_true, if_false]
            refine ⟨List.nodup_cons.mpr ⟨fun hmem => ?_, hrec.1⟩,
              fun a ha => ?_⟩
            · have := hrec.2 _ hmem
              simp at this
            · rcases List.mem_cons.mp ha with rfl | hmem
              · exact hdup
              · intro hcon
                exact hrec.2 _ hmem (by simp [hcon])

/-- The emitted list of `upnpDiscover` is the read-loop output on the
two non-failing entry paths and empty otherwise. -/
theorem upnpDiscover_emitted_eq (inp : UpnpInput) :
    (upnpDiscover inp).emitted = [] ∨
      (upnpDiscover inp).emitted = (upnpReadLoop inp.reads []).1 := by
  by_cases hl : inp.listenFails
  · left; simp [upnpDiscover, hl]
  · by_cases hw : inp.writeFails
    · left; simp [upnpDiscover, hl, hw]
    · right
      simp only [upnpDiscover, hl, hw, Bool.false_eq_true, if_false]
      rcases hx : (upnpReadLoop inp.reads []).2 <;> simp [hx]

/-- Claim C8: within one probe run, `upnpDiscover` emits every source
address at most once to the host channel, no matter how many duplicate
datagrams from that address pass validation: the emitted list has no
duplicates. -/
theorem upnpDiscover_emits_nodup (inp : UpnpInput) :
    (upnpDiscover inp).emitted.Nodup := by
  rcases upnpDiscover_emitted_eq inp with h | h
  · simp [h]
  · rw [h]
    exact (upnpReadLoop_nodup inp.reads []).1

/-- Claim C10: a read failing with a timeout-class error (a `net.Error`
whose `Timeout()` is true) ends the candidate sequence successfully
(`nil`, exit `ok`), any other read error ends it with that very error,
and every exit path of `upnpDiscover` other than being still blocked on
a read leaves the socket closed.  The first conjunct assumes the
datagrams read before the error do not panic inside the validator, so
that the loop actually reaches the failing read. -/
theorem upnpDiscover_read_error_handling :
    (∀ (ds : List (GoStr × GoStr)) (e : ReadErr) (tail : List ReadEvent)
        (origins : List GoStr),
      (∀ d ∈ ds, ssdpResponseValid d.1 d.2 ≠ none) →
      (upnpReadLoop
          (ds.map (fun d => ReadEvent.datagram d.1 d.2) ++
            ReadEvent.fail e :: tail) origins).2 =
        (if e.isNetError && e.isTimeout then UpnpExit.ok
         else UpnpExit.errored e)) ∧
    (∀ inp : UpnpInput, (upnpDiscover inp).exit ≠ UpnpExit.blocked →
      (upnpDiscover inp).socketClosed = true) := by
  constructor
  · intro ds
    induction ds with
    | nil =>
      intro e tail origins _
      rcases hn : e.isNetError <;> rcases ht : e.isTimeout <;>
        simp [upnpReadLoop, hn, ht]
    | cons d rest ih =>
      intro e tail origins hok
      have hd : ssdpResponseValid d.1 d.2 ≠ none := hok d (by simp)
      have hrest : ∀ x ∈ rest, ssdpResponseValid x.1 x.2 ≠ none := by
        intro x hx; exact hok x (by simp [hx])
      cases hv : ssdpResponseValid d.1 d.2 with
      | none => exact absurd hv hd
      | some valid =>
        cases valid with
        | false => simpa [upnpReadLoop, hv] using ih e tail origins hrest
        | true =>
          by_cases hdup : d.2 ∈ origins
          · simpa [upnpReadLoop, hv, hdup] using ih e tail origins hrest
          · simpa [upnpReadLoop, hv, hdup] using
              ih e tail (origins ++ [d.2]) hrest
  · intro inp h
    by_cases hl : inp.listenFails
    · simp [upnpDiscover, hl]
    · by_cases hw : inp.writeFails
      · simp [upnpDiscover, hl, hw]
      · simp only [upnpDiscover, hl, hw, Bool.false_eq_true, if_false] at *
        rcases hx : (upnpReadLoop inp.reads []).2 <;> simp [hx] at *

/-- Witness for C10 at concrete inputs: a lone timeout-class read error
ends the loop with exit `ok`, and the corresponding full probe run
closes the socket. -/
theorem upnpDiscover_read_error_handling_witness :
    (upnpReadLoop [ReadEvent.fail ⟨true, true, 7⟩] []).2 = UpnpExit.ok ∧
    (upnpDiscover ⟨false, false,
        [ReadEvent.fail ⟨true, true, 7⟩]⟩).socketClosed = true := by
  constructor
  · have h := upnpDiscover_read_error_handling.1 [] ⟨true, true, 7⟩ [] []
      (by simp)
    simpa using h
  · exact upnpDiscover_read_error_handling.2 _ (by decide)

/-! ## C9: candidate confirmer -/

/-- The confirmer loop equals a filter over the candidates: a candidate
passes exactly when its description fetch succeeds and the body holds
the whole fingerprint. -/
theorem validateBridges_eq_filter (fetch : GoStr → Option GoStr) :
    ∀ candidates : List GoStr,
      validateBridges fetch candidates =
        candidates.filter
          (fun c => ((fetch c).map hueFingerprint).getD false) := by
  intro candidates
  induction candidates with
  | nil => rfl
  | cons c rest ih =>
    cases hf : fetch c with
    | none => simp [validateBridges, hf, ih, List.filter_cons]
    | some body =>
      rcases h1 : goContains body deviceTypeTag <;>
      rcases h2 : goContains body manufacturerTag <;>
      rcases h3 : goContains body modelURLTag <;>
        simp [validateBridges, hf, h1, h2, h3, hueFingerprint, ih,
          List.filter_cons]

/-- Claim C9: `validateBridges` accepts a candidate if and only if the
fetched description body contains all three fixed substrings; a body
missing any one of the three is rejected, and a failed fetch (`none`,
modelling a network error on `http.Get` or on reading the body) is a
rejection that does not abort the processing of later candidates.  The
first conjunct gives the whole output as a filter of the input; the
second characterises membership. -/
theorem validateBridges_spec :
    (∀ (fetch : GoStr → Option GoStr) (candidates : List GoStr),
      validateBridges fetch candidates =
        candidates.filter
          (fun c => ((fetch c).map hueFingerprint).getD false)) ∧
    (∀ (fetch : GoStr → Option GoStr) (candidates : List GoStr)
        (c : GoStr),
      c ∈ validateBridges fetch candidates ↔
        c ∈ candidates ∧ ∃ body, fetch c = some body ∧
          goContains body deviceTypeTag = true ∧
          goContains body manufacturerTag = true ∧
          goContains body modelURLTag = true) := by
  refine ⟨fun fetch => validateBridges_eq_filter fetch, ?_⟩
  intro fetch candidates c
  rw [validateBridges_eq_filter]
  cases hf : fetch c with
  | none => simp [List.mem_filter, hf]
  | some body => simp [List.mem_filter, hf, hueFingerprint, and_assoc]

/-! ## C4: global dedup invariant -/

/-- The addresses held by the loop outcome extend the starting slice by
a prefix of the confirmed addresses delivered by the event trace. -/
theorem discoverLoop_addrs_from_events (all : Bool) :
    ∀ (events : List DiscoveryEvent) (s : LoopState),
      ∃ p, p <+: eventBridges events ∧
        outcomeAddrs (discoverLoop all s events) =
          s.bridges.map (fun b => b.ipAddr) ++ p := by
  intro events
  induction events with
  | nil =>
    intro s
    exact ⟨[], List.nil_prefix, by simp [discoverLoop, outcomeAddrs]⟩
  | cons e rest ih =>
    intro s
    cases e with
    | confirmed addr =>
      by_cases hall : all = true
      · subst hall
        obtain ⟨p, hp, he⟩ :=
          ih { s with bridges := s.bridges ++ [⟨addr, [], false⟩] }
        obtain ⟨t, ht⟩ := hp
        refine ⟨addr :: p, ⟨t, by simp [eventBridges, ht]⟩, ?_⟩
        simp only [discoverLoop, Bool.not_true, Bool.false_eq_true, if_false]
        rw [he]
        simp
      · simp only [Bool.not_eq_true] at hall
        subst hall
        refine ⟨[addr], ⟨eventBridges rest, by simp [eventBridges]⟩, ?_⟩
        simp [discoverLoop, outcomeAddrs]
    | closed =>
      refine ⟨[], List.nil_prefix, ?_⟩
      by_cases hlen : s.bridges.length > 0 <;>
        simp [discoverLoop, hlen, outcomeAddrs]
    | timeout =>
      refine ⟨[], List.nil_prefix, ?_⟩
      by_cases hlen : s.bridges.length > 0 <;>
        simp [discoverLoop, hlen, outcomeAddrs]

/-- Claim C4: whatever the probe run delivered and however many
duplicate datagrams produced each address, a run whose confirmed-bridge
events are drawn (in order) from the confirmation pipeline — the
confirmer applied to the multicast emissions, the only feed of
`hostChannel` — returns a final list in which every address appears at
most once. -/
theorem discoverBridges_result_addrs_nodup (all : Bool) (inp : UpnpInput)
    (fetch : GoStr → Option GoStr) (events : List DiscoveryEvent)
    (h : eventBridges events <+:
      validateBridges fetch (upnpDiscover inp).emitted) :
    (outcomeAddrs (DiscoverBridges all events)).Nodup := by
  obtain ⟨p, hp, he⟩ :=
    discoverLoop_addrs_from_events all events ⟨[], false, 0⟩
  have hres : outcomeAddrs (DiscoverBridges all events) = p := by
    simpa [DiscoverBridges] using he
  rw [hres]
  have hemit : (upnpDiscover inp).emitted.Nodup := by
    rcases upnpDiscover_emitted_eq inp with h0 | h0
    · simp [h0]
    · rw [h0]
      exact (upnpReadLoop_nodup inp.reads []).1
  have hvn : (validateBridges fetch (upnpDiscover inp).emitted).Nodup := by
    rw [validateBridges_eq_filter]
    exact hemit.filter _
  exact List.Nodup.sublist ((hp.trans h).sublist) hvn

/-- Witness for C4 at concrete inputs: two duplicate datagrams from
`10.0.0.5`, a confirming description oracle, and a run receiving that
single confirmed bridge; the hypothesis and the duplicate-free result
both evaluate. -/
theorem discoverBridges_result_addrs_nodup_witness :
    (eventBridges sampleEvents <+:
      validateBridges sampleFetch (upnpDiscover sampleUpnpInput).emitted) ∧
    (outcomeAddrs (DiscoverBridges true sampleEvents)).Nodup := by
  have hv : validateBridges sampleFetch
      (upnpDiscover sampleUpnpInput).emitted = [originA] := by decide
  have hpre : eventBridges sampleEvents <+:
      validateBridges sampleFetch (upnpDiscover sampleUpnpInput).emitted := by
    rw [hv]
    exact ⟨[], by decide⟩
  exact ⟨hpre, discoverBridges_result_addrs_nodup true sampleUpnpInput
    sampleFetch sampleEvents hpre⟩

end Hue

namespace Hue

/-! ## C2 and C3: SSDP response validator -/

/-- Counterexample to claim C2: a response whose LOCATION header has no
space after the colon (legal HTTP, host equal to the sender) makes
`ssdpResponseValid` panic with an index out of range (`none`) instead
of producing a pass or a validation failure: the body contains the
letters `location`, so the guard passes, but `strings.SplitAfter`
finds no separator `location: ` and returns a one-element slice whose
index 1 is then read. -/
theorem ssdpResponseValid_panics_on_unsliceable_location :
    ssdpResponseValid ssdpBodyNoSpace originA = none := by decide

/-- Claim C2 as amended: `ssdpResponseValid` returns a pass exactly when
the status check, the case-insensitive USN, ST and IpBridge checks and
the `location` substring check hold and the token the code slices out
of the first location line (the text between `http://` and the next
`:`, via `ssdpExtractIP`) equals the origin address; when the slicing
itself fails the result is a panic (`none`), not a validation
failure. -/
theorem ssdpResponseValid_pass_iff (body origin : GoStr) :
    ssdpResponseValid body origin = some true ↔
      (goContains body statusTag = true ∧
       goContains (goToLower body) usnTag = true ∧
       goContains (goToLower body) stTag = true ∧
       goContains (goToLower body) ipBridgeTag = true ∧
       goContains (goToLower body) locationTag = true ∧
       ssdpExtractIP (goToLower body) = some origin) := by
  unfold ssdpResponseValid ssdpExtractIP
  rcases h1 : goContains body statusTag with _ | _
  · simp [h1]
  rcases h2 : goContains (goToLower body) usnTag with _ | _
  · simp [h1, h2]
  rcases h3 : goContains (goToLower body) stTag with _ | _
  · simp [h1, h2, h3]
  rcases h4 : goContains (goToLower body) ipBridgeTag with _ | _
  · simp [h1, h2, h3, h4]
  rcases h5 : goContains (goToLower body) locationTag with _ | _
  · simp [h1, h2, h3, h4, h5]
  simp only [h1, h2, h3, h4, h5, Bool.not_true, Bool.or_self, Bool.or_false,
    Bool.false_or, Bool.false_eq_true, if_false, ite_false, if_true,
    ite_true, eq_self_iff_true, true_and]
  rcases hm : (goSplitAfter (goToLower body) locationSep).get? 1
    with _ | s1
  · simp only [hm]
    simp
  · simp only [hm]
    rcases hm2 : (goSplitAfter ((goSplit s1 newlineTag).headD [])
        httpScheme).get? 1 with _ | s2
    · simp only [hm2]
      simp
    · simp only [hm2]
      by_cases hip : (goSplit s2 colonTag).headD [] = origin
      · simp only [hip]
        simp
      · refine iff_of_false ?_ ?_
        · rw [if_pos hip]
          simp
        · intro hcon
          exact hip (Option.some.inj hcon)

/-- Witness for C2 as amended at a concrete input: the sample response
with an explicit port passes, and each of the six characterising
conditions evaluates to true on it. -/
theorem ssdpResponseValid_pass_iff_witness :
    ssdpResponseValid ssdpBodyWithPort originA = some true :=
  (ssdpResponseValid_pass_iff ssdpBodyWithPort originA).mpr (by decide)

/-- Counterexample to claim C3: a response passing the first three
checks whose LOCATION URL is the port-less
`http://10.0.0.5/description.xml`, received from `10.0.0.5` itself, is
rejected (`some false`): the compared token runs to the next `:` and so
includes the path. -/
theorem ssdpResponseValid_rejects_portless_location :
    ssdpResponseValid ssdpBodyNoPort originA = some false := by decide

/-- Claim C3 as amended: for responses passing the first three checks,
the validator compares the origin against the text of the location
line between `http://` and the next `:`.  With an explicit port
(`http://10.0.0.5:80/description.xml`) it accepts from sender
`10.0.0.5` and rejects from any other sender; without a port the
compared text keeps the path, so `http://10.0.0.5/description.xml` is
rejected even when the sender is `10.0.0.5`. -/
theorem ssdpResponseValid_location_comparison :
    ssdpResponseValid ssdpBodyWithPort originA = some true ∧
    ssdpResponseValid ssdpBodyWithPort originB = some false ∧
    ssdpResponseValid ssdpBodyNoPort originA = some false :=
  ⟨by decide, by decide, by decide⟩

end Hue
